import Mathlib

/-!
Verification of the queue/dispatch core of `webhook_mt5_server_with_db.py`
(TradingView → server queue → MT5 EA bridge).

The Python module keeps a global in-memory list `order_queue` guarded by a
`threading.Lock`, and exposes three Flask routes: `/webhook` (validate a
payload and enqueue an order), `/pending` (peek the head order) and
`/pending/ack` (remove an order by id).  Optional persistence sinks (MySQL
and a Google Sheet) are notified of lifecycle events.

We embed the module shallowly: the global `order_queue` becomes an explicit
`List Trade` threaded through the functions, the optional sinks become a
`SinkConfig` record that says which sinks are enabled and whether the
injected sink operation fails, and a Python exception escaping a route
becomes `Except.error`.
-/

namespace TvWebhook

/-- The trade dict built by the `/webhook` route (source lines 260-269).
`symbol` is stored exactly as `data.get("symbol")` returns it, so it may be
absent (`None`); validation happens only after the dict is built.  JSON
numbers are modelled as rationals.  The opaque `extra` bag is modelled as a
list of key/value pairs. -/
structure Trade where
  id : String
  action : String
  symbol : Option String
  sl : Option Rat
  tp : Option Rat
  volume : Rat
  message : String
  extra : List (String × String)
deriving DecidableEq, Repr

/-- A parsed inbound JSON payload for `/webhook`: every field may be absent. -/
structure Payload where
  secret : Option String
  id : Option String
  action : Option String
  symbol : Option String
  sl : Option Rat
  tp : Option Rat
  volume : Option Rat
  message : Option String
  extra : Option (List (String × String))
deriving DecidableEq, Repr

/-- Persistence-sink configuration: `writeToDB` / `writeToSheet` mirror the
`WRITE_TO_DB` / `WRITE_TO_SHEET` flags; `dbFails` / `sheetFails` inject a
failure into every database / sheet operation. -/
structure SinkConfig where
  writeToDB : Bool
  writeToSheet : Bool
  dbFails : Bool
  sheetFails : Bool
deriving DecidableEq, Repr

/-- `insert_trade_db(trade)`: returns immediately when `WRITE_TO_DB` is off,
otherwise talks to MySQL, which raises when the database is unavailable. -/
def insert_trade_db (c : SinkConfig) : Except String Unit :=
  if !c.writeToDB then Except.ok ()
  else if c.dbFails then Except.error "db"
  else Except.ok ()

/-- `update_trade_status(trade_id, status_field)`: returns immediately when
`WRITE_TO_DB` is off, otherwise talks to MySQL, which raises when the
database is unavailable.  Note the source wraps this call in no
try/except at its call sites in the `/pending` and `/pending/ack` routes. -/
def update_trade_status (c : SinkConfig) : Except String Unit :=
  if !c.writeToDB then Except.ok ()
  else if c.dbFails then Except.error "db"
  else Except.ok ()

/-- The raw `sheet.append_row(...)` call, which raises on a sheet failure. -/
def sheet_append_row_raw (c : SinkConfig) : Except String Unit :=
  if c.sheetFails then Except.error "append_row failed" else Except.ok ()

/-- `append_sheet_row(trade, event)`: returns immediately when
`WRITE_TO_SHEET` is off; otherwise the `sheet.append_row` call sits inside
its own try/except, so this function never raises (source lines 222-240). -/
def append_sheet_row (c : SinkConfig) : Unit :=
  if !c.writeToSheet then ()
  else
    match sheet_append_row_raw c with
    | Except.ok _ => ()
    | Except.error _ => ()

/-- `add_order_to_queue(trade)` (source lines 155-164): appends the trade to
the queue under the lock, then notifies both sinks inside a try/except that
catches and logs any exception, so the function never raises and the queue
mutation is never rolled back. -/
def add_order_to_queue (c : SinkConfig) (q : List Trade) (t : Trade) : List Trade :=
  let q2 := q ++ [t]
  match (if c.writeToDB then insert_trade_db c else Except.ok ()) with
  | Except.error _ => q2
  | Except.ok _ =>
    let _ := if c.writeToSheet then append_sheet_row c else ()
    q2

/-- `get_next_order()` (source lines 166-168): under the lock, returns
`order_queue[0] if order_queue else None`; the queue is not modified. -/
def get_next_order (q : List Trade) : Option Trade × List Trade :=
  (q.head?, q)

/-- `ack_order(order_id)` (source lines 174-180): under the lock, scans the
queue and pops the first order whose id matches, returning `True`; returns
`False` (queue untouched) when no order matches. -/
def ack_order (q : List Trade) (i : String) : Bool × List Trade :=
  match q with
  | [] => (false, [])
  | o :: rest =>
    if o.id = i then (true, rest)
    else
      let r := ack_order rest i
      (r.1, o :: r.2)

/-- HTTP-level responses produced by the three routes. -/
inductive HttpResp
  | okOrder (t : Trade)
  | okAck
  | okQueued (id : String)
  | noContent
  | notFound
  | badRequest (msg : String)
  | unauthorized
deriving DecidableEq, Repr

/-- Python's `str.upper()`, modelled as an uppercase map over the string's
characters (the source only ever applies it to the `action` token). -/
def pyUpper (s : String) : String :=
  ⟨s.data.map Char.toUpper⟩

/-- Normalization performed by the `/webhook` route (source lines 260-269):
 - `id`: `str(data.get("id", f"tv-{int(now)}"))` — the caller id when
   present, else a time-derived token;
 - `action`: `str(data.get("action", "")).upper()`;
 - `symbol`: `data.get("symbol")`, unmodified;
 - `sl`/`tp`: `float(v) if v else None` — Python truthiness, so an absent
   key and the value `0` both yield `None`;
 - `volume`: `float(data.get("volume", 0))`;
 - `message` defaults to `""`, `extra` to `{}`. -/
def mkTrade (now : Nat) (p : Payload) : Trade :=
  { id := match p.id with
          | some s => s
          | none => "tv-" ++ toString now
    action := pyUpper (p.action.getD "")
    symbol := p.symbol
    sl := match p.sl with
          | some v => if v = 0 then none else some v
          | none => none
    tp := match p.tp with
          | some v => if v = 0 then none else some v
          | none => none
    volume := p.volume.getD 0
    message := p.message.getD ""
    extra := p.extra.getD [] }

/-- Python truthiness of `trade["symbol"]` (an optional string). -/
def truthySymbol : Option String → Bool
  | none => false
  | some s => s ≠ ""

/-- The `/webhook` route (source lines 249-276), after JSON parsing: check
the shared secret, build the trade dict, reject when `action` or `symbol`
is falsy, otherwise enqueue.  `add_order_to_queue` never raises, so neither
does this route. -/
def webhook (c : SinkConfig) (secretCfg : String) (now : Nat)
    (q : List Trade) (p : Payload) : HttpResp × List Trade :=
  if p.secret ≠ some secretCfg then (HttpResp.unauthorized, q)
  else if (mkTrade now p).action = "" ∨ truthySymbol (mkTrade now p).symbol = false then
    (HttpResp.badRequest "missing action or symbol", q)
  else
    (HttpResp.okQueued (mkTrade now p).id, add_order_to_queue c q (mkTrade now p))

/-- The `/pending` route (source lines 278-290): peek the head order; when
one exists, call `update_trade_status` (NOT wrapped in try/except — a
database failure raises out of the route) and `append_sheet_row`, then
return the order.  The queue itself is never modified. -/
def pending (c : SinkConfig) (q : List Trade) :
    Except String HttpResp × List Trade :=
  match (get_next_order q).1 with
  | some o =>
    match update_trade_status c with
    | Except.error e => (Except.error e, (get_next_order q).2)
    | Except.ok _ =>
      let _ := append_sheet_row c
      (Except.ok (HttpResp.okOrder o), (get_next_order q).2)
  | none => (Except.ok HttpResp.noContent, (get_next_order q).2)

/-- The `/pending/ack` route (source lines 292-307): require an id (absent
or empty id → 400), call `ack_order`; on success call `update_trade_status`
(again not wrapped in try/except, so a database failure raises AFTER the
order was already removed) and `append_sheet_row`; on failure return 404. -/
def ack (c : SinkConfig) (q : List Trade) (i : Option String) :
    Except String HttpResp × List Trade :=
  match i with
  | none => (Except.ok (HttpResp.badRequest "id required"), q)
  | some oid =>
    if oid = "" then (Except.ok (HttpResp.badRequest "id required"), q)
    else if (ack_order q oid).1 then
      match update_trade_status c with
      | Except.error e => (Except.error e, (ack_order q oid).2)
      | Except.ok _ =>
        let _ := append_sheet_row c
        (Except.ok HttpResp.okAck, (ack_order q oid).2)
    else
      (Except.ok HttpResp.notFound, (ack_order q oid).2)

/-- A sink configuration with the failure injection turned off. -/
def noFail (c : SinkConfig) : SinkConfig :=
  { c with dbFails := false, sheetFails := false }

/-- N consecutive peeks through `get_next_order`, threading the queue state
and collecting the returned values. -/
def peekN (q : List Trade) : Nat → List (Option Trade) × List Trade
  | 0 => ([], q)
  | n + 1 =>
    let r := get_next_order q
    let rest := peekN r.2 n
    (r.1 :: rest.1, rest.2)

/-! ### Micro-step concurrency model for the lock (C9)

The source guards every access to the global `order_queue` with the single
`queue_lock` (`with queue_lock:` in `add_order_to_queue`, `get_next_order`
and `ack_order`).  We model the queue-touching part of each operation as a
list of primitive steps executed between an explicit lock acquisition and
release, and let two threads interleave their steps.  `ack_order`'s body is
two primitives (the scan for the index, then the pop at that index), so its
read-modify-write is not atomic at the primitive level and genuinely needs
the lock. -/

/-- The index of the first order with the given id, as computed by the scan
loop in `ack_order`. -/
def find_index (i : String) : List Trade → Option Nat
  | [] => none
  | o :: rest => if o.id = i then some 0 else (find_index i rest).map (· + 1)

/-- `order_queue.pop(k)`: remove the element at index `k`. -/
def pop_at : List Trade → Nat → List Trade
  | [], _ => []
  | _ :: rest, 0 => rest
  | o :: rest, k + 1 => o :: pop_at rest k

/-- Primitive queue-touching steps: `list.append`, the head read of
`get_next_order`, and the scan and positional pop of `ack_order`. -/
inductive Prim
  | append (t : Trade)
  | readHead
  | findMatch (i : String)
  | popFound
deriving DecidableEq, Repr

/-- Thread-local registers: the scan result of `ack_order`, the value
returned by `get_next_order`, and the boolean returned by `ack_order`. -/
structure Locals where
  reg : Option Nat
  retPeek : Option (Option Trade)
  retAck : Option Bool
deriving DecidableEq, Repr

def Locals.init : Locals := ⟨none, none, none⟩

/-- A thread-view of the shared queue plus the thread's registers. -/
structure Cfg where
  queue : List Trade
  locals : Locals
deriving DecidableEq, Repr

/-- Effect of one primitive step. -/
def stepPrim (c : Cfg) : Prim → Cfg
  | Prim.append t => { c with queue := c.queue ++ [t] }
  | Prim.readHead => { c with locals := { c.locals with retPeek := some c.queue.head? } }
  | Prim.findMatch i => { c with locals := { c.locals with reg := find_index i c.queue } }
  | Prim.popFound =>
    match c.locals.reg with
    | some k => { queue := pop_at c.queue k, locals := { c.locals with retAck := some true } }
    | none => { c with locals := { c.locals with retAck := some false } }

/-- Run a list of primitives sequentially. -/
def runPrims (c : Cfg) (ps : List Prim) : Cfg :=
  ps.foldl stepPrim c

/-- Run a body from a queue with fresh registers. -/
def threadRun (q : List Trade) (ps : List Prim) : Cfg :=
  runPrims ⟨q, Locals.init⟩ ps

/-- The three dispatcher operations. -/
inductive Op
  | enqueue (t : Trade)
  | peekNext
  | acknowledge (i : String)
deriving DecidableEq, Repr

/-- The primitive body each operation runs while holding `queue_lock`. -/
def opBody : Op → List Prim
  | Op.enqueue t => [Prim.append t]
  | Op.peekNext => [Prim.readHead]
  | Op.acknowledge i => [Prim.findMatch i, Prim.popFound]

/-- Progress of one thread: before its critical section, inside it, done. -/
inductive Phase
  | idle
  | locked
  | done
deriving DecidableEq, Repr

/-- One thread: its phase, remaining primitives, and registers. -/
structure TState where
  phase : Phase
  todo : List Prim
  locals : Locals
deriving DecidableEq, Repr

/-- The whole system: shared queue, lock owner (`none` = free, `some false`
= thread A, `some true` = thread B), and the two threads. -/
structure Sys where
  queue : List Trade
  lock : Option Bool
  a : TState
  b : TState
deriving DecidableEq, Repr

def initTS (b : List Prim) : TState := ⟨Phase.idle, b, Locals.init⟩

def initSys (bA bB : List Prim) (q : List Trade) : Sys :=
  ⟨q, none, initTS bA, initTS bB⟩

/-- A finished thread: it ran its whole body serially from queue `q`. -/
def doneTS (q : List Trade) (b : List Prim) : TState :=
  ⟨Phase.done, [], (threadRun q b).locals⟩

/-- The system state after A's critical section ran first, then B's. -/
def finalAB (bA bB : List Prim) (q : List Trade) : Sys :=
  ⟨(threadRun (threadRun q bA).queue bB).queue, none,
   doneTS q bA, doneTS (threadRun q bA).queue bB⟩

/-- The system state after B's critical section ran first, then A's. -/
def finalBA (bA bB : List Prim) (q : List Trade) : Sys :=
  ⟨(threadRun (threadRun q bB).queue bA).queue, none,
   doneTS (threadRun q bB).queue bA, doneTS q bB⟩

/-- Interleaved small-step semantics.  A thread may acquire the free lock
to enter its critical section, execute its next primitive while in the
critical section, and release the lock when its body is exhausted.  This is
exactly the discipline the source's `with queue_lock:` blocks impose. -/
inductive Step : Sys → Sys → Prop
  | acquireA (s : Sys) (h1 : s.lock = none) (h2 : s.a.phase = Phase.idle) :
      Step s { s with lock := some false, a := { s.a with phase := Phase.locked } }
  | primA (s : Sys) (p : Prim) (rest : List Prim)
      (h1 : s.a.phase = Phase.locked) (h2 : s.a.todo = p :: rest) :
      Step s { queue := (stepPrim ⟨s.queue, s.a.locals⟩ p).queue,
               lock := s.lock,
               a := ⟨Phase.locked, rest, (stepPrim ⟨s.queue, s.a.locals⟩ p).locals⟩,
               b := s.b }
  | releaseA (s : Sys) (h1 : s.a.phase = Phase.locked) (h2 : s.a.todo = []) :
      Step s { s with lock := none, a := { s.a with phase := Phase.done } }
  | acquireB (s : Sys) (h1 : s.lock = none) (h2 : s.b.phase = Phase.idle) :
      Step s { s with lock := some true, b := { s.b with phase := Phase.locked } }
  | primB (s : Sys) (p : Prim) (rest : List Prim)
      (h1 : s.b.phase = Phase.locked) (h2 : s.b.todo = p :: rest) :
      Step s { queue := (stepPrim ⟨s.queue, s.b.locals⟩ p).queue,
               lock := s.lock,
               a := s.a,
               b := ⟨Phase.locked, rest, (stepPrim ⟨s.queue, s.b.locals⟩ p).locals⟩ }
  | releaseB (s : Sys) (h1 : s.b.phase = Phase.locked) (h2 : s.b.todo = []) :
      Step s { s with lock := none, b := { s.b with phase := Phase.done } }

/-- Shape of every state reachable from `initSys bA bB q`: either nobody
has run yet; or one thread is inside (or past) its critical section having
executed a prefix of its body serially, while the other is still idle; or
the first thread is done and the second is inside (or past) its critical
section, running serially from the queue the first left behind.  In every
case the queue content is a serial run of prefixes — never a mixture. -/
inductive Inv (bA bB : List Prim) (q0 : List Trade) : Sys → Prop
  | start : Inv bA bB q0 (initSys bA bB q0)
  | aLocked (ps rest : List Prim) (h : bA = ps ++ rest) :
      Inv bA bB q0 ⟨(threadRun q0 ps).queue, some false,
                    ⟨Phase.locked, rest, (threadRun q0 ps).locals⟩, initTS bB⟩
  | aDone :
      Inv bA bB q0 ⟨(threadRun q0 bA).queue, none, doneTS q0 bA, initTS bB⟩
  | abLocked (ps rest : List Prim) (h : bB = ps ++ rest) :
      Inv bA bB q0 ⟨(threadRun (threadRun q0 bA).queue ps).queue, some true,
                    doneTS q0 bA,
                    ⟨Phase.locked, rest, (threadRun (threadRun q0 bA).queue ps).locals⟩⟩
  | abDone : Inv bA bB q0 (finalAB bA bB q0)
  | bLocked (ps rest : List Prim) (h : bB = ps ++ rest) :
      Inv bA bB q0 ⟨(threadRun q0 ps).queue, some true, initTS bA,
                    ⟨Phase.locked, rest, (threadRun q0 ps).locals⟩⟩
  | bDone :
      Inv bA bB q0 ⟨(threadRun q0 bB).queue, none, initTS bA, doneTS q0 bB⟩
  | baLocked (ps rest : List Prim) (h : bA = ps ++ rest) :
      Inv bA bB q0 ⟨(threadRun (threadRun q0 bB).queue ps).queue, some false,
                    ⟨Phase.locked, rest, (threadRun (threadRun q0 bB).queue ps).locals⟩,
                    doneTS q0 bB⟩
  | baDone : Inv bA bB q0 (finalBA bA bB q0)

/-! ### Sample data used by witnesses -/

def tradeA : Trade := ⟨"1", "BUY", some "EURUSD", none, none, 1, "", []⟩

def tradeB : Trade := ⟨"2", "SELL", some "EURUSD", none, none, 1, "", []⟩

def tradeC : Trade := ⟨"3", "BUY", some "USDJPY", none, none, 2, "", []⟩

def sinkOff : SinkConfig := ⟨false, false, false, false⟩

def sinkDbFail : SinkConfig := ⟨true, false, true, false⟩

def payloadA : Payload :=
  ⟨some "s", some "1", some "buy", some "EURUSD", none, none, some 1, none, none⟩

def payloadBad : Payload :=
  ⟨some "s", none, none, some "EURUSD", none, none, none, none, none⟩

def payloadZero : Payload :=
  ⟨some "s", some "7", some "sell", some "EURUSD", some 0, some 0, some 1, none, none⟩

/-! ### Helper lemmas -/

/-- The sink notifications in `add_order_to_queue` are wrapped in a
try/except, so whatever the sink configuration, the function reduces to a
plain append. -/
theorem add_order_to_queue_eq_append (c : SinkConfig) (q : List Trade) (t : Trade) :
    add_order_to_queue c q t = q ++ [t] := by
  unfold add_order_to_queue
  cases (if c.writeToDB then insert_trade_db c else Except.ok ()) <;> rfl

/-- The `/pending` route never modifies the queue, whatever the sink does. -/
theorem pending_snd (c : SinkConfig) (q : List Trade) : (pending c q).2 = q := by
  unfold pending get_next_order
  cases q.head? with
  | none => rfl
  | some o => cases update_trade_status c <;> rfl

/-- The queue left by the `/pending/ack` route does not depend on the sink
configuration: it is the queue produced by `ack_order` (or the input queue
when no id was supplied). -/
theorem ack_snd (c : SinkConfig) (q : List Trade) (i : Option String) :
    (ack c q i).2 =
      match i with
      | none => q
      | some oid => if oid = "" then q else (ack_order q oid).2 := by
  unfold ack
  cases i with
  | none => rfl
  | some oid =>
    by_cases h : oid = ""
    · simp [h]
    · simp only [if_neg h]
      cases hr : (ack_order q oid).1 with
      | false => simp [hr]
      | true =>
        simp only [hr]
        cases hu : update_trade_status c <;> simp [hu]

/-- Folding `add_order_to_queue` over a list of trades appends them all. -/
theorem foldl_add_order (c : SinkConfig) (ts : List Trade) :
    ∀ q : List Trade, ts.foldl (add_order_to_queue c) q = q ++ ts := by
  induction ts with
  | nil => intro q; simp
  | cons t ts ih =>
    intro q
    simp [List.foldl, add_order_to_queue_eq_append, ih]

/-- Running one more primitive extends a serial prefix run. -/
theorem threadRun_snoc (q : List Trade) (ps : List Prim) (p : Prim) :
    threadRun q (ps ++ [p]) = stepPrim (threadRun q ps) p := by
  simp [threadRun, runPrims, List.foldl_append]

/-- `ack_order` computes exactly what the two-primitive scan-then-pop body
computes: the index of the first match, then the pop at that index. -/
theorem ack_order_eq_scan (q : List Trade) (i : String) :
    ack_order q i =
      match find_index i q with
      | some k => (true, pop_at q k)
      | none => (false, q) := by
  induction q with
  | nil => rfl
  | cons o rest ih =>
    by_cases h : o.id = i
    · simp [ack_order, find_index, h, pop_at]
    · simp only [ack_order, find_index, if_neg h, ih]
      cases find_index i rest <;> simp [pop_at]

/-- The one-primitive body of `enqueue` run serially is `add_order_to_queue`. -/
theorem opBody_enqueue_run (c : SinkConfig) (q : List Trade) (t : Trade) :
    (threadRun q (opBody (Op.enqueue t))).queue = add_order_to_queue c q t := by
  rw [add_order_to_queue_eq_append]
  rfl

/-- The one-primitive body of `peekNext` run serially returns what
`get_next_order` returns, and leaves the queue unchanged. -/
theorem opBody_peek_run (q : List Trade) :
    (threadRun q (opBody Op.peekNext)).locals.retPeek = some (get_next_order q).1
    ∧ (threadRun q (opBody Op.peekNext)).queue = q := by
  exact ⟨rfl, rfl⟩

/-- The two-primitive body of `acknowledge` run serially computes exactly
what `ack_order` computes. -/
theorem opBody_ack_run (q : List Trade) (i : String) :
    (threadRun q (opBody (Op.acknowledge i))).queue = (ack_order q i).2
    ∧ (threadRun q (opBody (Op.acknowledge i))).locals.retAck = some (ack_order q i).1 := by
  rw [ack_order_eq_scan]
  cases h : find_index i q <;>
    simp [threadRun, runPrims, opBody, stepPrim, Locals.init, h]

/-- Preservation: every step from a state of the reachable shape leads to a
state of the reachable shape. -/
theorem Inv_step {bA bB : List Prim} {q0 : List Trade} {s s' : Sys}
    (hinv : Inv bA bB q0 s) (hstep : Step s s') : Inv bA bB q0 s' := by
  cases hinv with
  | start =>
    cases hstep with
    | acquireA h1 h2 => exact Inv.aLocked [] bA rfl
    | primA pp rr h1 h2 => exact Phase.noConfusion h1
    | releaseA h1 h2 => exact Phase.noConfusion h1
    | acquireB h1 h2 => exact Inv.bLocked [] bB rfl
    | primB pp rr h1 h2 => exact Phase.noConfusion h1
    | releaseB h1 h2 => exact Phase.noConfusion h1
  | aLocked ps rest h =>
    cases hstep with
    | acquireA h1 h2 => exact Phase.noConfusion h2
    | primA pp rr h1 h2 =>
      replace h2 : rest = pp :: rr := h2
      subst h2
      rw [List.append_cons] at h
      have hnew := @Inv.aLocked bA bB q0 (ps ++ [pp]) rr h
      rw [threadRun_snoc] at hnew
      exact hnew
    | releaseA h1 h2 =>
      replace h2 : rest = [] := h2
      subst h2
      rw [List.append_nil] at h
      subst h
      exact Inv.aDone
    | acquireB h1 h2 => exact Option.noConfusion h1
    | primB pp rr h1 h2 => exact Phase.noConfusion h1
    | releaseB h1 h2 => exact Phase.noConfusion h1
  | aDone =>
    cases hstep with
    | acquireA h1 h2 => exact Phase.noConfusion h2
    | primA pp rr h1 h2 => exact Phase.noConfusion h1
    | releaseA h1 h2 => exact Phase.noConfusion h1
    | acquireB h1 h2 => exact Inv.abLocked [] bB rfl
    | primB pp rr h1 h2 => exact Phase.noConfusion h1
    | releaseB h1 h2 => exact Phase.noConfusion h1
  | abLocked ps rest h =>
    cases hstep with
    | acquireA h1 h2 => exact Phase.noConfusion h2
    | primA pp rr h1 h2 => exact Phase.noConfusion h1
    | releaseA h1 h2 => exact Phase.noConfusion h1
    | acquireB h1 h2 => exact Option.noConfusion h1
    | primB pp rr h1 h2 =>
      replace h2 : rest = pp :: rr := h2
      subst h2
      rw [List.append_cons] at h
      have hnew := @Inv.abLocked bA bB q0 (ps ++ [pp]) rr h
      rw [threadRun_snoc] at hnew
      exact hnew
    | releaseB h1 h2 =>
      replace h2 : rest = [] := h2
      subst h2
      rw [List.append_nil] at h
      subst h
      exact Inv.abDone
  | abDone =>
    cases hstep with
    | acquireA h1 h2 => exact Phase.noConfusion h2
    | primA pp rr h1 h2 => exact Phase.noConfusion h1
    | releaseA h1 h2 => exact Phase.noConfusion h1
    | acquireB h1 h2 => exact Phase.noConfusion h2
    | primB pp rr h1 h2 => exact Phase.noConfusion h1
    | releaseB h1 h2 => exact Phase.noConfusion h1
  | bLocked ps rest h =>
    cases hstep with
    | acquireA h1 h2 => exact Option.noConfusion h1
    | primA pp rr h1 h2 => exact Phase.noConfusion h1
    | releaseA h1 h2 => exact Phase.noConfusion h1
    | acquireB h1 h2 => exact Phase.noConfusion h2
    | primB pp rr h1 h2 =>
      replace h2 : rest = pp :: rr := h2
      subst h2
      rw [List.append_cons] at h
      have hnew := @Inv.bLocked bA bB q0 (ps ++ [pp]) rr h
      rw [threadRun_snoc] at hnew
      exact hnew
    | releaseB h1 h2 =>
      replace h2 : rest = [] := h2
      subst h2
      rw [List.append_nil] at h
      subst h
      exact Inv.bDone
  | bDone =>
    cases hstep with
    | acquireA h1 h2 => exact Inv.baLocked [] bA rfl
    | primA pp rr h1 h2 => exact Phase.noConfusion h1
    | releaseA h1 h2 => exact Phase.noConfusion h1
    | acquireB h1 h2 => exact Phase.noConfusion h2
    | primB pp rr h1 h2 => exact Phase.noConfusion h1
    | releaseB h1 h2 => exact Phase.noConfusion h1
  | baLocked ps rest h =>
    cases hstep with
    | acquireA h1 h2 => exact Option.noConfusion h1
    | primA pp rr h1 h2 =>
      replace h2 : rest = pp :: rr := h2
      subst h2
      rw [List.append_cons] at h
      have hnew := @Inv.baLocked bA bB q0 (ps ++ [pp]) rr h
      rw [threadRun_snoc] at hnew
      exact hnew
    | releaseA h1 h2 =>
      replace h2 : rest = [] := h2
      subst h2
      rw [List.append_nil] at h
      subst h
      exact Inv.baDone
    | acquireB h1 h2 => exact Phase.noConfusion h2
    | primB pp rr h1 h2 => exact Phase.noConfusion h1
    | releaseB h1 h2 => exact Phase.noConfusion h1
  | baDone =>
    cases hstep with
    | acquireA h1 h2 => exact Phase.noConfusion h2
    | primA pp rr h1 h2 => exact Phase.noConfusion h1
    | releaseA h1 h2 => exact Phase.noConfusion h1
    | acquireB h1 h2 => exact Phase.noConfusion h2
    | primB pp rr h1 h2 => exact Phase.noConfusion h1
    | releaseB h1 h2 => exact Phase.noConfusion h1

/-- Every state reachable from the initial state has the invariant shape. -/
theorem reachable_inv {bA bB : List Prim} {q0 : List Trade} {s : Sys}
    (h : Relation.ReflTransGen Step (initSys bA bB q0) s) : Inv bA bB q0 s := by
  induction h with
  | refl => exact Inv.start
  | tail _ hstep ih => exact Inv_step ih hstep

/-! ### Claims C1-C8, C10 -/

/-- C1 (counterexample): the source `add_order_to_queue` performs no
duplicate-id check, so enqueueing the payload with id "1" twice succeeds
both times (second response is still 200 ok) and the queue length becomes
2, not 1 as the claim states. -/
theorem c1_counterexample :
    (webhook sinkOff "s" 0 ((webhook sinkOff "s" 0 [] payloadA).2) payloadA).1
      = HttpResp.okQueued "1"
    ∧ ((webhook sinkOff "s" 0 ((webhook sinkOff "s" 0 [] payloadA).2) payloadA).2).length
      = 2 := by
  constructor <;> decide

/-- C1 (amended): enqueue performs no duplicate-id check: even when an
order with the same id is already in the queue, `add_order_to_queue`
unconditionally appends the new order, growing the queue by one. -/
theorem c1_amended (c : SinkConfig) (q : List Trade) (t : Trade)
    (h : t.id ∈ q.map Trade.id) :
    add_order_to_queue c q t = q ++ [t]
    ∧ (add_order_to_queue c q t).length = q.length + 1 := by
  refine ⟨add_order_to_queue_eq_append c q t, ?_⟩
  rw [add_order_to_queue_eq_append]
  simp

/-- Witness for C1 (amended) at a concrete duplicate enqueue. -/
theorem c1_amended_witness :
    add_order_to_queue sinkOff [tradeA] tradeA = [tradeA] ++ [tradeA]
    ∧ (add_order_to_queue sinkOff [tradeA] tradeA).length = [tradeA].length + 1 :=
  c1_amended sinkOff [tradeA] tradeA (by decide)

/-- C2 (counterexample): with the database sink enabled and failing, the
`/pending` route propagates the database error to the caller (the
`update_trade_status` call is not wrapped in try/except), while the same
call without the failure returns the head order — so a sink failure IS
propagated and DOES change the observable outcome. -/
theorem c2_counterexample :
    (pending sinkDbFail [tradeA]).1 = Except.error "db"
    ∧ (pending (noFail sinkDbFail) [tradeA]).1 = Except.ok (HttpResp.okOrder tradeA) := by
  constructor <;> rfl

/-- C2 (amended): sink failures during enqueue are always caught inside
`add_order_to_queue`, so the `/webhook` outcome is unchanged by failure
injection; the queues left by `/pending` and `/pending/ack` are likewise
unchanged by failure injection; but a database failure during the status
update of `/pending` propagates to the caller as an error instead of the
order payload. -/
theorem c2_amended (c : SinkConfig) (s : String) (now : Nat) (q : List Trade)
    (p : Payload) (i : Option String) (o : Trade)
    (hdb : c.writeToDB = true) (hfail : c.dbFails = true)
    (hhead : (get_next_order q).1 = some o) :
    webhook c s now q p = webhook (noFail c) s now q p
    ∧ (pending c q).2 = q
    ∧ (ack c q i).2 = (ack (noFail c) q i).2
    ∧ (pending c q).1 = Except.error "db" := by
  refine ⟨?_, pending_snd c q, ?_, ?_⟩
  · unfold webhook
    split
    · rfl
    · split
      · rfl
      · rw [add_order_to_queue_eq_append, add_order_to_queue_eq_append]
  · rw [ack_snd, ack_snd]
  · have hupd : update_trade_status c = Except.error "db" := by
      unfold update_trade_status
      rw [hdb, hfail]
      rfl
    unfold pending
    rw [hhead, hupd]

/-- Witness for C2 (amended) at a concrete failing configuration. -/
theorem c2_amended_witness :
    webhook sinkDbFail "s" 0 [tradeA] payloadA
      = webhook (noFail sinkDbFail) "s" 0 [tradeA] payloadA
    ∧ (pending sinkDbFail [tradeA]).2 = [tradeA]
    ∧ (ack sinkDbFail [tradeA] (some "1")).2
      = (ack (noFail sinkDbFail) [tradeA] (some "1")).2
    ∧ (pending sinkDbFail [tradeA]).1 = Except.error "db" :=
  c2_amended sinkDbFail "s" 0 [tradeA] payloadA (some "1") tradeA rfl rfl rfl

/-- C3 (confirmed): `get_next_order` never removes an order: after any
number of consecutive peeks the queue is exactly what it was, and every
peek returned the same value — the head order, or `none` on an empty
queue. -/
theorem c3_peek_preserves (q : List Trade) (n : Nat) :
    (peekN q n).2 = q
    ∧ (peekN q n).1 = List.replicate n (get_next_order q).1 := by
  induction n with
  | zero => exact ⟨rfl, rfl⟩
  | succ n ih =>
    refine ⟨ih.1, ?_⟩
    simp only [peekN, get_next_order, List.replicate]
    exact congrArg (q.head? :: ·) ih.2

/-- C4 (confirmed): acknowledging an id that is present removes exactly the
first order carrying it, at any position, leaving the relative order of the
other orders undisturbed; a subsequent peek returns the head of the
remaining queue (or `none` if it is now empty). -/
theorem c4_ack_any_position (l1 l2 : List Trade) (o : Trade) (i : String)
    (ho : o.id = i) (hl1 : ∀ x ∈ l1, x.id ≠ i) :
    ack_order (l1 ++ o :: l2) i = (true, l1 ++ l2)
    ∧ (get_next_order (l1 ++ l2)).1 = (l1 ++ l2).head? := by
  refine ⟨?_, rfl⟩
  induction l1 with
  | nil => simp [ack_order, ho]
  | cons x xs ih =>
    have hx : x.id ≠ i := hl1 x (by simp)
    have ih2 := ih (fun y hy => hl1 y (List.mem_cons_of_mem x hy))
    simp only [List.cons_append, ack_order, if_neg hx, List.append_eq, ih2]

/-- Witness for C4 at a concrete non-head acknowledge. -/
theorem c4_witness :
    ack_order ([tradeA] ++ tradeB :: [tradeC]) "2" = (true, [tradeA] ++ [tradeC])
    ∧ (get_next_order ([tradeA] ++ [tradeC])).1 = ([tradeA] ++ [tradeC]).head? :=
  c4_ack_any_position [tradeA] [tradeC] tradeB "2" rfl (by decide)

/-- C5 (confirmed): acknowledging an id that is not in the queue returns
`False` from `ack_order` without mutating the queue, and the route answers
404 not-found with the queue unchanged. -/
theorem c5_ack_not_found (c : SinkConfig) (q : List Trade) (i : String)
    (h : ∀ o ∈ q, o.id ≠ i) (hi : i ≠ "") :
    ack_order q i = (false, q)
    ∧ ack c q (some i) = (Except.ok HttpResp.notFound, q) := by
  have hq : ack_order q i = (false, q) := by
    induction q with
    | nil => rfl
    | cons o rest ih =>
      have ho : o.id ≠ i := h o (by simp)
      have ih2 := ih (fun y hy => h y (List.mem_cons_of_mem o hy))
      simp only [ack_order, if_neg ho, ih2]
  refine ⟨hq, ?_⟩
  unfold ack
  simp only [if_neg hi, hq]
  rfl

/-- Witness for C5 at a concrete absent id. -/
theorem c5_witness :
    ack_order [tradeA] "9" = (false, [tradeA])
    ∧ ack sinkOff [tradeA] (some "9") = (Except.ok HttpResp.notFound, [tradeA]) :=
  c5_ack_not_found sinkOff [tradeA] "9" (by decide) (by decide)

/-- C6 (confirmed): enqueueing any sequence of trades with pairwise
distinct ids, starting from the empty queue, leaves exactly those trades in
the queue, in arrival order. -/
theorem c6_arrival_order (c : SinkConfig) (ts : List Trade)
    (h : (ts.map Trade.id).Nodup) :
    ts.foldl (add_order_to_queue c) [] = ts := by
  simpa using foldl_add_order c ts []

/-- Witness for C6 at a concrete two-element run. -/
theorem c6_witness :
    List.foldl (add_order_to_queue sinkOff) [] [tradeA, tradeB] = [tradeA, tradeB] :=
  c6_arrival_order sinkOff [tradeA, tradeB] (by decide)

/-- C7 (confirmed): a payload with missing or empty `action` or `symbol` is
rejected with a 400 client error and the queue is untouched; and any trade
that actually gets appended by the `/webhook` route has a non-empty
`action` and a truthy (present, non-empty) `symbol`. -/
theorem c7_validation (c : SinkConfig) (s : String) (now : Nat) (q : List Trade)
    (p pg : Payload) (t : Trade)
    (hsecret : p.secret = some s)
    (hbad : p.action = none ∨ p.action = some "" ∨ p.symbol = none ∨ p.symbol = some "") :
    webhook c s now q p = (HttpResp.badRequest "missing action or symbol", q)
    ∧ ((webhook c s now q pg).2 = q ++ [t] →
        t.action ≠ "" ∧ truthySymbol t.symbol = true) := by
  constructor
  · have hact : (mkTrade now p).action = pyUpper (p.action.getD "") := rfl
    have hsym : (mkTrade now p).symbol = p.symbol := rfl
    have hcond : (mkTrade now p).action = "" ∨ truthySymbol (mkTrade now p).symbol = false := by
      rcases hbad with h | h | h | h
      · left; rw [hact, h]; rfl
      · left; rw [hact, h]; rfl
      · right; rw [hsym, h]; rfl
      · right; rw [hsym, h]; rfl
    unfold webhook
    rw [if_neg (by simp [hsecret]), if_pos hcond]
  · intro heq
    unfold webhook at heq
    split at heq
    · have hlen := congrArg List.length heq
      simp only [List.length_append, List.length_cons, List.length_nil] at hlen
      omega
    · split at heq
      · have hlen := congrArg List.length heq
        simp only [List.length_append, List.length_cons, List.length_nil] at hlen
        omega
      · rename_i hok
        have heq2 : q ++ [mkTrade now pg] = q ++ [t] := by
          rw [add_order_to_queue_eq_append] at heq
          exact heq
        have ht : mkTrade now pg = t := by
          have := List.append_cancel_left heq2
          simpa using this
        rw [not_or] at hok
        rw [← ht]
        refine ⟨hok.1, ?_⟩
        cases hts : truthySymbol (mkTrade now pg).symbol with
        | false => exact absurd hts hok.2
        | true => rfl

/-- Witness for C7 at a concrete malformed payload. -/
theorem c7_witness :
    webhook sinkOff "s" 0 [] payloadBad
      = (HttpResp.badRequest "missing action or symbol", [])
    ∧ ((webhook sinkOff "s" 0 [] payloadA).2 = [] ++ [mkTrade 0 payloadA] →
        (mkTrade 0 payloadA).action ≠ ""
        ∧ truthySymbol (mkTrade 0 payloadA).symbol = true) :=
  c7_validation sinkOff "s" 0 [] payloadBad payloadA (mkTrade 0 payloadA) rfl (Or.inl rfl)

/-- C8 (confirmed): normalization defaults of the `/webhook` route: absent
`sl`/`tp` become `none` (absent, not zero), absent `volume` becomes 0, an
absent `id` becomes the time-derived token `"tv-" ++ now`, and a supplied
`id` is kept as the caller's string. -/
theorem c8_defaults (now : Nat) (p : Payload) (s : String) :
    (p.sl = none → (mkTrade now p).sl = none)
    ∧ (p.tp = none → (mkTrade now p).tp = none)
    ∧ (p.volume = none → (mkTrade now p).volume = 0)
    ∧ (p.id = none → (mkTrade now p).id = "tv-" ++ toString now)
    ∧ (p.id = some s → (mkTrade now p).id = s) := by
  refine ⟨?_, ?_, ?_, ?_, ?_⟩ <;> intro h <;> simp [mkTrade, h]

/-- Witness for C8 at a concrete payload. -/
theorem c8_witness :
    (payloadBad.sl = none → (mkTrade 7 payloadBad).sl = none)
    ∧ (payloadBad.tp = none → (mkTrade 7 payloadBad).tp = none)
    ∧ (payloadBad.volume = none → (mkTrade 7 payloadBad).volume = 0)
    ∧ (payloadBad.id = none → (mkTrade 7 payloadBad).id = "tv-" ++ toString 7)
    ∧ (payloadBad.id = some "x" → (mkTrade 7 payloadBad).id = "x") :=
  c8_defaults 7 payloadBad "x"

/-- C10 (confirmed): a payload carrying `sl = 0` (or `tp = 0`) is
normalized exactly as if the field were absent — the whole resulting trade
is equal to the one built from the payload with the field removed, and the
field itself is `none` — because presence is tested by Python truthiness of
the value. -/
theorem c10_zero_collapses (now : Nat) (p : Payload) :
    (p.sl = some 0 → mkTrade now p = mkTrade now { p with sl := none })
    ∧ (p.tp = some 0 → mkTrade now p = mkTrade now { p with tp := none })
    ∧ (p.sl = some 0 → (mkTrade now p).sl = none)
    ∧ (p.tp = some 0 → (mkTrade now p).tp = none) := by
  refine ⟨?_, ?_, ?_, ?_⟩ <;> intro h <;> simp [mkTrade, h]

/-- C9 (confirmed): the single `queue_lock` serializes `enqueue`,
`peekNext` and `acknowledge`: in the interleaved small-step semantics of
two concurrent operations, no reachable state has both threads inside
their critical sections (mutual exclusion), and every completed
interleaving leaves the system exactly as one of the two serial
executions — so no interleaving can observe or produce an intermediate
queue state. -/
theorem c9_lock_serializes (o1 o2 : Op) (q0 : List Trade) (s : Sys)
    (h : Relation.ReflTransGen Step (initSys (opBody o1) (opBody o2) q0) s) :
    ¬(s.a.phase = Phase.locked ∧ s.b.phase = Phase.locked)
    ∧ (s.a.phase = Phase.done → s.b.phase = Phase.done →
        s = finalAB (opBody o1) (opBody o2) q0
        ∨ s = finalBA (opBody o1) (opBody o2) q0) := by
  have hinv := reachable_inv h
  cases hinv with
  | start =>
    exact ⟨fun hc => Phase.noConfusion hc.1, fun hA _ => Phase.noConfusion hA⟩
  | aLocked ps rest hps =>
    exact ⟨fun hc => Phase.noConfusion hc.2, fun hA _ => Phase.noConfusion hA⟩
  | aDone =>
    exact ⟨fun hc => Phase.noConfusion hc.1, fun _ hB => Phase.noConfusion hB⟩
  | abLocked ps rest hps =>
    exact ⟨fun hc => Phase.noConfusion hc.1, fun _ hB => Phase.noConfusion hB⟩
  | abDone =>
    exact ⟨fun hc => Phase.noConfusion hc.1, fun _ _ => Or.inl rfl⟩
  | bLocked ps rest hps =>
    exact ⟨fun hc => Phase.noConfusion hc.1, fun hA _ => Phase.noConfusion hA⟩
  | bDone =>
    exact ⟨fun hc => Phase.noConfusion hc.1, fun hA _ => Phase.noConfusion hA⟩
  | baLocked ps rest hps =>
    exact ⟨fun hc => Phase.noConfusion hc.2, fun hA _ => Phase.noConfusion hA⟩
  | baDone =>
    exact ⟨fun hc => Phase.noConfusion hc.1, fun _ _ => Or.inr rfl⟩

/-- Witness for C9: a concrete complete interleaving of an enqueue and an
acknowledge, built step by step. -/
theorem c9_witness :
    ¬((finalAB (opBody (Op.enqueue tradeA)) (opBody (Op.acknowledge "1")) []).a.phase
        = Phase.locked
      ∧ (finalAB (opBody (Op.enqueue tradeA)) (opBody (Op.acknowledge "1")) []).b.phase
        = Phase.locked)
    ∧ ((finalAB (opBody (Op.enqueue tradeA)) (opBody (Op.acknowledge "1")) []).a.phase
        = Phase.done →
       (finalAB (opBody (Op.enqueue tradeA)) (opBody (Op.acknowledge "1")) []).b.phase
        = Phase.done →
       finalAB (opBody (Op.enqueue tradeA)) (opBody (Op.acknowledge "1")) []
         = finalAB (opBody (Op.enqueue tradeA)) (opBody (Op.acknowledge "1")) []
       ∨ finalAB (opBody (Op.enqueue tradeA)) (opBody (Op.acknowledge "1")) []
         = finalBA (opBody (Op.enqueue tradeA)) (opBody (Op.acknowledge "1")) []) := by
  refine c9_lock_serializes (Op.enqueue tradeA) (Op.acknowledge "1") [] _ ?_
  refine Relation.ReflTransGen.head (Step.acquireA _ rfl rfl) ?_
  refine Relation.ReflTransGen.head (Step.primA _ (Prim.append tradeA) [] rfl rfl) ?_
  refine Relation.ReflTransGen.head (Step.releaseA _ rfl rfl) ?_
  refine Relation.ReflTransGen.head (Step.acquireB _ rfl rfl) ?_
  refine Relation.ReflTransGen.head
    (Step.primB _ (Prim.findMatch "1") [Prim.popFound] rfl rfl) ?_
  refine Relation.ReflTransGen.head (Step.primB _ Prim.popFound [] rfl rfl) ?_
  refine Relation.ReflTransGen.head (Step.releaseB _ rfl rfl) ?_
  exact Relation.ReflTransGen.refl

/-- Witness for C10 at a concrete zero stop-loss / take-profit payload. -/
theorem c10_witness :
    (payloadZero.sl = some 0 →
      mkTrade 0 payloadZero = mkTrade 0 { payloadZero with sl := none })
    ∧ (payloadZero.tp = some 0 →
      mkTrade 0 payloadZero = mkTrade 0 { payloadZero with tp := none })
    ∧ (payloadZero.sl = some 0 → (mkTrade 0 payloadZero).sl = none)
    ∧ (payloadZero.tp = some 0 → (mkTrade 0 payloadZero).tp = none) :=
  c10_zero_collapses 0 payloadZero

end TvWebhook
